import Mathlib

/-!
Shallow embedding of the payment-splitter data model
(`src/backend/apps/{chain,wallet,tokens,payment}/models.py`).

Each Django model becomes a structure; the relational store is a `Store`
holding one list per table.  Foreign keys are numeric ids.  Soft delete
(`django_softdelete.SoftDeleteModel`) is the `deleted_at : Option Nat`
timestamp column; a row is *live* when `deleted_at = none`.  Write
operations follow Django's create path (`full_clean` + `save`): field
validators and foreign-key resolution through each target model's default
manager (the soft-delete manager, which filters out soft-deleted rows),
then `clean`, then the declared `UniqueConstraint`s, and finally
persistence.  A failed write returns an error and, being a pure function
on `Store`, leaves the store unchanged.
-/

/-- `apps/chain/models.py`: `Chain(NamedModel)` — plain model, **no**
soft-delete mixin, hence no `deleted_at` column. -/
structure Chain where
  id : Nat
  chain_id : Nat
  native_currency : String
  name : String
deriving DecidableEq

/-- `apps/wallet/models.py`: `Wallet(SoftDeleteModel, AbstractWallet,
TimeStampedModel)`; only the fields the claims touch. -/
structure Wallet where
  id : Nat
  ethereum_address : String
  deleted_at : Option Nat
deriving DecidableEq

/-- `apps/tokens/models.py`: `ERC20Token(SoftDeleteModel, TimeStampedModel,
NamedModel)` with non-nullable FK `chain`. -/
structure ERC20Token where
  id : Nat
  name : String
  symbol : String
  address : String
  chain : Nat
  deleted_at : Option Nat
deriving DecidableEq

/-- `apps/payment/models.py`: `PaymentGroup(SoftDeleteModel,
TimeStampedModel, WalletRelatedModel, NamedModel)`; `chain` and `token`
are nullable FKs. -/
structure PaymentGroup where
  id : Nat
  name : String
  detail : Option String
  wallet : Nat
  chain : Option Nat
  token : Option Nat
  deleted_at : Option Nat
deriving DecidableEq

/-- `apps/payment/models.py`: `Payee(SoftDeleteModel, NamedModel)`; the
source field holding the payee's address string is named `wallet`. -/
structure Payee where
  id : Nat
  name : String
  wallet : String
  payment_group : Nat
  amount : Nat
  deleted_at : Option Nat
deriving DecidableEq

/-- `apps/payment/models.py`: `Payment(SoftDeleteModel, TimeStampedModel)`
— a settlement event; its only domain field is the FK `payee`. -/
structure Payment where
  id : Nat
  payee : Nat
  deleted_at : Option Nat
deriving DecidableEq

/-- The relational store: one table per concrete model. -/
structure Store where
  chains : List Chain
  wallets : List Wallet
  tokens : List ERC20Token
  groups : List PaymentGroup
  payees : List Payee
  payments : List Payment
deriving DecidableEq

/-- The error kinds surfaced by writes (spec §7). -/
inductive DBError where
  | validationError (msg : String)
  | uniquenessViolation (constraint : String)
  | referentialIntegrityError
deriving DecidableEq

/-- `PaymentGroup.use_erc20`: `bool(self.token)`. -/
def PaymentGroup.use_erc20 (g : PaymentGroup) : Bool :=
  g.token.isSome

/-- `PaymentGroup.use_native_currency`: `not bool(self.token)`. -/
def PaymentGroup.use_native_currency (g : PaymentGroup) : Bool :=
  !g.token.isSome

/-- FK resolution of a `Wallet` through its default manager
(`WalletManager(SoftDeleteManager, ...)`, live rows only). -/
def liveWallet (st : Store) (wid : Nat) : Bool :=
  st.wallets.any (fun w => w.id == wid && w.deleted_at == none)

/-- FK resolution of a `Chain` (plain model, no soft delete). -/
def chainExists (st : Store) (cid : Nat) : Bool :=
  st.chains.any (fun c => c.id == cid)

/-- A nullable `Chain` FK is acceptable when null or resolvable. -/
def chainRefOk (st : Store) : Option Nat → Bool
  | none => true
  | some cid => chainExists st cid

/-- FK resolution of an `ERC20Token` through its soft-delete default
manager: the referenced row must exist and be live. -/
def findLiveToken (st : Store) (tid : Nat) : Option ERC20Token :=
  st.tokens.find? (fun t => t.id == tid && t.deleted_at == none)

/-- The condition guarded by `unique_erc20token_address_chain_id`:
some live token row already carries this `(address, chain)` pair. -/
def liveTokenDup (st : Store) (address : String) (chain : Nat) : Bool :=
  st.tokens.any (fun t =>
    t.deleted_at == none && t.address == address && t.chain == chain)

/-- Create an `ERC20Token`: FK check on `chain`, then the partial unique
constraint `unique_erc20token_address_chain_id` (scoped to
`deleted_at=None`), then persistence. -/
def createERC20Token (st : Store) (id : Nat) (name symbol address : String)
    (chain : Nat) : Except DBError Store :=
  if !(chainExists st chain) then .error .referentialIntegrityError
  else if liveTokenDup st address chain then
    .error (.uniquenessViolation "unique_erc20token_address_chain_id")
  else .ok { st with tokens := st.tokens ++ [⟨id, name, symbol, address, chain, none⟩] }

/-- Update a live `ERC20Token`'s `(address, chain)` pair: the row must
resolve through the soft-delete manager, the new `chain` must exist, and
the partial unique constraint is checked against every *other* live row. -/
def updateERC20Token (st : Store) (tid : Nat) (address : String)
    (chain : Nat) : Except DBError Store :=
  match findLiveToken st tid with
  | none => .error .referentialIntegrityError
  | some _ =>
    if !(chainExists st chain) then .error .referentialIntegrityError
    else if st.tokens.any (fun t => !(t.id == tid) && t.deleted_at == none &&
        t.address == address && t.chain == chain) then
      .error (.uniquenessViolation "unique_erc20token_address_chain_id")
    else .ok { st with tokens := st.tokens.map (fun t =>
        if t.id == tid && t.deleted_at == none then
          { t with address := address, chain := chain } else t) }

/-- Create a `PaymentGroup`: FK checks (`wallet`, `chain`, `token`), then
`PaymentGroup.clean`: `if self.token and self.chain != self.token.chain:
raise ValidationError(...)` — comparison of the nullable `chain` FK with
the token's non-null `chain` FK is by primary key. -/
def createPaymentGroup (st : Store) (id : Nat) (name : String)
    (detail : Option String) (wallet : Nat) (chain : Option Nat)
    (token : Option Nat) : Except DBError Store :=
  if !(liveWallet st wallet) then .error .referentialIntegrityError
  else if !(chainRefOk st chain) then .error .referentialIntegrityError
  else
    match token with
    | none =>
      .ok { st with groups := st.groups ++ [⟨id, name, detail, wallet, chain, none, none⟩] }
    | some tid =>
      match findLiveToken st tid with
      | none => .error .referentialIntegrityError
      | some t =>
        if chain == some t.chain then
          .ok { st with groups := st.groups ++ [⟨id, name, detail, wallet, chain, some tid, none⟩] }
        else
          .error (.validationError "If a token is specified, it must belong to the same chain.")

/-- A hexadecimal digit. -/
def isHexDigitChar (c : Char) : Bool :=
  (('0' ≤ c) && (c ≤ '9')) || (('a' ≤ c) && (c ≤ 'f')) || (('A' ≤ c) && (c ≤ 'F'))

/-- Modelled from the spec: the Ethereum-address validator attached to
`Payee.wallet` (`siwe_auth.models.validate_ethereum_address`) lives in the
external `siwe_auth` package, absent from `src/`.  Per the spec a valid
address is "a syntactically valid Ethereum address — fixed-length hex
string with a recognized checksum/prefix format": the `0x` prefix followed
by exactly 40 hexadecimal digits (the keccak checksum is abstracted away;
every string accepted here is at least syntactically well-formed, and
everything malformed is rejected). -/
def isValidEthereumAddress (s : String) : Bool :=
  match s.data with
  | '0' :: 'x' :: rest => rest.length == 40 && rest.all isHexDigitChar
  | _ => false

/-- FK resolution of a `PaymentGroup` through its soft-delete default
manager. -/
def liveGroupExists (st : Store) (gid : Nat) : Bool :=
  st.groups.any (fun g => g.id == gid && g.deleted_at == none)

/-- The condition guarded by `payee_wallet_payment_group`: some live payee
row already carries this `(wallet, payment_group)` pair. -/
def livePayeeDup (st : Store) (w : String) (gid : Nat) : Bool :=
  st.payees.any (fun p =>
    p.deleted_at == none && p.wallet == w && p.payment_group == gid)

/-- Create a `Payee`: the field validator on `wallet`, the FK check on
`payment_group`, then the partial unique constraint
`payee_wallet_payment_group` (scoped to `deleted_at=None`). -/
def createPayee (st : Store) (id : Nat) (name w : String)
    (gid amount : Nat) : Except DBError Store :=
  if !(isValidEthereumAddress w) then
    .error (.validationError (w ++ " is not a valid Ethereum address"))
  else if !(liveGroupExists st gid) then .error .referentialIntegrityError
  else if livePayeeDup st w gid then
    .error (.uniquenessViolation "payee_wallet_payment_group")
  else .ok { st with payees := st.payees ++ [⟨id, name, w, gid, amount, none⟩] }

/-- Create a `Payment`: the only validation is FK resolution of `payee`
through the soft-delete default manager (the referenced payee must exist
and be live); `Payment` declares no further fields or constraints. -/
def createPayment (st : Store) (id pid : Nat) : Except DBError Store :=
  if st.payees.any (fun p => p.id == pid && p.deleted_at == none) then
    .ok { st with payments := st.payments ++ [⟨id, pid, none⟩] }
  else .error .referentialIntegrityError

/-- Soft-delete a `Payee` at time `now`: sets `deleted_at` on the live row
and cascades logical deletion to its live `Payment`s.  Modelled from the
spec: the cascading soft delete itself is implemented by the external
`django_softdelete.SoftDeleteModel.delete`, absent from `src/`; the spec
says soft-delete "cascades logical deletion to dependents per
cascade-on-delete semantics", and `Payment.payee` is declared
`on_delete=CASCADE`. -/
def softDeletePayee (st : Store) (pid now : Nat) : Store :=
  { st with
    payees := st.payees.map (fun p =>
      if p.id == pid && p.deleted_at == none then { p with deleted_at := some now } else p),
    payments := st.payments.map (fun q =>
      if q.payee == pid && q.deleted_at == none then { q with deleted_at := some now } else q) }

/-- Soft-delete a `PaymentGroup` at time `now`: sets `deleted_at` on the
live group row and cascades logical deletion to the group's `Payee`s and
their `Payment`s (both FKs are `on_delete=CASCADE` and both models are
soft-deletable).  Modelled from the spec: the cascade is implemented by
the external `django_softdelete.SoftDeleteModel.delete`, absent from
`src/`; the spec says "deleting a PaymentGroup soft-deletes its Payees and
their Payments".  No row is removed — rows are only marked. -/
def softDeletePaymentGroup (st : Store) (gid now : Nat) : Store :=
  { st with
    groups := st.groups.map (fun g =>
      if g.id == gid && g.deleted_at == none then { g with deleted_at := some now } else g),
    payees := st.payees.map (fun p =>
      if p.payment_group == gid && p.deleted_at == none then { p with deleted_at := some now } else p),
    payments := st.payments.map (fun q =>
      if (st.payees.any (fun p => p.payment_group == gid && p.id == q.payee))
          && q.deleted_at == none then { q with deleted_at := some now } else q) }

/-- An `ERC20Token` row disappears when its chain is hard-deleted
(`ERC20Token.chain` is `on_delete=CASCADE`). -/
def chainGoneToken (cid : Nat) (t : ERC20Token) : Bool :=
  t.chain == cid

/-- A `PaymentGroup` row disappears when its chain is hard-deleted: either
directly (`PaymentGroup.chain` is `on_delete=CASCADE`) or through its
token (`PaymentGroup.token` is `on_delete=CASCADE` and the token is on the
deleted chain). -/
def chainGoneGroup (st : Store) (cid : Nat) (g : PaymentGroup) : Bool :=
  g.chain == some cid ||
    (match g.token with
     | some tid => st.tokens.any (fun t => t.id == tid && t.chain == cid)
     | none => false)

/-- A `Payee` row disappears when its group does (`Payee.payment_group` is
`on_delete=CASCADE`). -/
def chainGonePayee (st : Store) (cid : Nat) (p : Payee) : Bool :=
  st.groups.any (fun g => chainGoneGroup st cid g && g.id == p.payment_group)

/-- A `Payment` row disappears when its payee does (`Payment.payee` is
`on_delete=CASCADE`). -/
def chainGonePayment (st : Store) (cid : Nat) (q : Payment) : Bool :=
  st.payees.any (fun p => chainGonePayee st cid p && p.id == q.payee)

/-- Hard-delete a `Chain`.  `Chain` is a plain model without the
soft-delete mixin, so `delete()` runs the ordinary collector: every row
reachable over an `on_delete=CASCADE` FK is *removed* from its table (the
collector issues SQL deletes and never consults `deleted_at`), regardless
of the dependent models being soft-deletable. -/
def hardDeleteChain (st : Store) (cid : Nat) : Store :=
  { st with
    chains := st.chains.filter (fun c => !(c.id == cid)),
    tokens := st.tokens.filter (fun t => !(chainGoneToken cid t)),
    groups := st.groups.filter (fun g => !(chainGoneGroup st cid g)),
    payees := st.payees.filter (fun p => !(chainGonePayee st cid p)),
    payments := st.payments.filter (fun q => !(chainGonePayment st cid q)) }

/-- Spec §8 / claim C1: every persisted group that references a live token
sits on that token's chain. -/
def groupTokenConsistent (st : Store) : Prop :=
  ∀ g ∈ st.groups, ∀ tid, g.token = some tid →
    ∀ t, findLiveToken st tid = some t → g.chain = some t.chain

/-- The partial unique constraint on tokens as a store invariant: no two
live token rows share `(address, chain)`. -/
def tokensUniqueLive (st : Store) : Prop :=
  st.tokens.Pairwise (fun a b => a.deleted_at = none → b.deleted_at = none →
    ¬(a.address = b.address ∧ a.chain = b.chain))

/-- Primary keys of the token table are pairwise distinct. -/
def tokenIdsDistinct (st : Store) : Prop :=
  st.tokens.Pairwise (fun a b => a.id ≠ b.id)

/-- The partial unique constraint on payees as a store invariant: no two
live payee rows share `(wallet, payment_group)`. -/
def payeesUniqueLive (st : Store) : Prop :=
  st.payees.Pairwise (fun a b => a.deleted_at = none → b.deleted_at = none →
    ¬(a.wallet = b.wallet ∧ a.payment_group = b.payment_group))

/-! ## Concrete rows and stores used by the witnesses -/

def chainW : Chain := ⟨1, 1, "ETH", "Ethereum"⟩

def walletW : Wallet := ⟨1, "0xaaaaaaaaaaaaaaaaaaaaaaaaaaaaaaaaaaaaaaaa", none⟩

def tokenW : ERC20Token := ⟨1, "USD Coin", "USDC", "0xA0b8", 1, none⟩

def groupW : PaymentGroup := ⟨1, "rent", none, 1, some 1, none, none⟩

def addrW : String := "0xbbbbbbbbbbbbbbbbbbbbbbbbbbbbbbbbbbbbbbbb"

def payeeW : Payee := ⟨1, "alice", addrW, 1, 5, none⟩

def paymentW : Payment := ⟨1, 1, none⟩

def stW : Store := ⟨[chainW], [walletW], [tokenW], [groupW], [payeeW], [paymentW]⟩

/-! ## Theorems -/

/-- C8: for every `PaymentGroup`, `use_erc20` holds iff `token` is set,
`use_native_currency` holds iff `token` is unset, and exactly one of the
two derived properties is true. -/
theorem use_erc20_native_currency_exclusive (g : PaymentGroup) :
    (g.use_erc20 = true ↔ g.token.isSome = true) ∧
    (g.use_native_currency = true ↔ g.token = none) ∧
    ((g.use_erc20 = true ∧ g.use_native_currency = false) ∨
     (g.use_erc20 = false ∧ g.use_native_currency = true)) := by
  cases h : g.token <;>
    simp [PaymentGroup.use_erc20, PaymentGroup.use_native_currency, h]

/-- C7: creating a `Payee` with a malformed `wallet` address string fails
with a `ValidationError`; in particular the input `"not-an-address"`
fails. -/
theorem createPayee_invalid_address (st : Store) (id amount gid : Nat)
    (name w : String) (hw : isValidEthereumAddress w = false) :
    createPayee st id name w gid amount =
      .error (.validationError (w ++ " is not a valid Ethereum address")) ∧
    createPayee st id name "not-an-address" gid amount =
      .error (.validationError
        "not-an-address is not a valid Ethereum address") := by
  have h2 : isValidEthereumAddress "not-an-address" = false := by decide
  constructor
  · simp [createPayee, hw]
  · simp [createPayee, h2]

/-- Witness for C7 at the concrete malformed inputs `"nope"` and
`"not-an-address"`. -/
theorem createPayee_invalid_address_witness :
    isValidEthereumAddress "nope" = false ∧
    (createPayee stW 9 "bob" "nope" 1 5 =
      .error (.validationError ("nope" ++ " is not a valid Ethereum address")) ∧
     createPayee stW 9 "bob" "not-an-address" 1 5 =
      .error (.validationError
        "not-an-address is not a valid Ethereum address")) :=
  ⟨by decide, createPayee_invalid_address stW 9 5 1 "bob" "nope" (by decide)⟩

/-- C6: creating a `Payment` succeeds exactly when the referenced payee
exists and is live, in which case the settlement row is appended; when the
payee is missing or soft-deleted it fails with a referential-integrity
error.  The two branches exhaust the definition, so no other validation is
applied. -/
theorem createPayment_referential_integrity (st : Store) (id pid : Nat) :
    ((∃ p ∈ st.payees, p.id = pid ∧ p.deleted_at = none) →
      createPayment st id pid =
        .ok { st with payments := st.payments ++ [⟨id, pid, none⟩] }) ∧
    ((¬ ∃ p ∈ st.payees, p.id = pid ∧ p.deleted_at = none) →
      createPayment st id pid = .error .referentialIntegrityError) := by
  cases hany : st.payees.any (fun p => p.id == pid && p.deleted_at == none)
  · refine ⟨fun h => ?_, fun _ => by simp [createPayment, hany]⟩
    obtain ⟨p, hp, h1, h2⟩ := h
    have : st.payees.any (fun p => p.id == pid && p.deleted_at == none) = true :=
      List.any_eq_true.mpr ⟨p, hp, by simp [h1, h2]⟩
    rw [hany] at this
    cases this
  · refine ⟨fun _ => by simp [createPayment, hany], fun h => ?_⟩
    obtain ⟨p, hp, hb⟩ := List.any_eq_true.mp hany
    exact absurd ⟨p, hp, by simpa using hb⟩ h

/-- Witness for C6 at a concrete store with a live payee. -/
theorem createPayment_referential_integrity_witness :
    ((∃ p ∈ stW.payees, p.id = 1 ∧ p.deleted_at = none) →
      createPayment stW 9 1 =
        .ok { stW with payments := stW.payments ++ [⟨9, 1, none⟩] }) ∧
    ((¬ ∃ p ∈ stW.payees, p.id = 1 ∧ p.deleted_at = none) →
      createPayment stW 9 1 = .error .referentialIntegrityError) :=
  createPayment_referential_integrity stW 9 1

/-- C1: for a group creation whose `token` field is set and whose other
references resolve, validation succeeds iff the token's chain equals the
group's declared chain; on mismatch it fails with the `ValidationError`
raised by `PaymentGroup.clean`; and successful creation preserves the
invariant that no persisted group carries a mismatched token/chain pair. -/
theorem createPaymentGroup_token_chain (st : Store) (id : Nat)
    (name : String) (detail : Option String) (wallet : Nat)
    (chain : Option Nat) (tid : Nat) (t : ERC20Token)
    (hw : liveWallet st wallet = true) (hc : chainRefOk st chain = true)
    (ht : findLiveToken st tid = some t) :
    ((∃ st', createPaymentGroup st id name detail wallet chain (some tid) = .ok st') ↔
      chain = some t.chain) ∧
    (chain ≠ some t.chain →
      createPaymentGroup st id name detail wallet chain (some tid) =
        .error (.validationError
          "If a token is specified, it must belong to the same chain.")) ∧
    (groupTokenConsistent st → ∀ st',
      createPaymentGroup st id name detail wallet chain (some tid) = .ok st' →
      groupTokenConsistent st') := by
  have hred : createPaymentGroup st id name detail wallet chain (some tid) =
      (if chain == some t.chain then
        .ok { st with groups :=
          st.groups ++ [⟨id, name, detail, wallet, chain, some tid, none⟩] }
      else .error (.validationError
        "If a token is specified, it must belong to the same chain.")) := by
    simp [createPaymentGroup, hw, hc, ht]
  by_cases hch : chain = some t.chain
  · have hok : createPaymentGroup st id name detail wallet chain (some tid) =
        .ok { st with groups :=
          st.groups ++ [⟨id, name, detail, wallet, chain, some tid, none⟩] } := by
      rw [hred, if_pos (by simp [hch])]
    refine ⟨⟨fun _ => hch, fun _ => ⟨_, hok⟩⟩, fun hne => absurd hch hne, ?_⟩
    intro hcons st' hst'
    rw [hok] at hst'
    injection hst' with h
    subst h
    intro g hg tid' htok t' ht'
    rcases List.mem_append.mp hg with hgl | hgr
    · exact hcons g hgl tid' htok t' ht'
    · have hgeq : g = ⟨id, name, detail, wallet, chain, some tid, none⟩ := by
        simpa using hgr
      subst hgeq
      have htid : tid = tid' := by simpa using htok
      subst htid
      have ht'' : findLiveToken st tid = some t' := ht'
      rw [ht] at ht''
      injection ht'' with h
      subst h
      exact hch
  · have herr : createPaymentGroup st id name detail wallet chain (some tid) =
        .error (.validationError
          "If a token is specified, it must belong to the same chain.") := by
      rw [hred, if_neg (by simp [hch])]
    refine ⟨⟨?_, fun h => absurd h hch⟩, fun _ => herr, ?_⟩
    · rintro ⟨st', hst'⟩
      rw [herr] at hst'
      cases hst'
    · intro _ st' hst'
      rw [herr] at hst'
      cases hst'

/-- Witness for C1 at a concrete store whose token sits on chain 1. -/
theorem createPaymentGroup_token_chain_witness :
    liveWallet stW 1 = true ∧ chainRefOk stW (some 1) = true ∧
    findLiveToken stW 1 = some tokenW ∧
    (((∃ st', createPaymentGroup stW 7 "g" none 1 (some 1) (some 1) = .ok st') ↔
        (some 1 : Option Nat) = some tokenW.chain) ∧
     ((some 1 : Option Nat) ≠ some tokenW.chain →
       createPaymentGroup stW 7 "g" none 1 (some 1) (some 1) =
         .error (.validationError
           "If a token is specified, it must belong to the same chain.")) ∧
     (groupTokenConsistent stW → ∀ st',
       createPaymentGroup stW 7 "g" none 1 (some 1) (some 1) = .ok st' →
       groupTokenConsistent st')) :=
  ⟨by decide, by decide, by decide,
   createPaymentGroup_token_chain stW 7 "g" none 1 (some 1) 1 tokenW
     (by decide) (by decide) (by decide)⟩

/-- C9: creating a `PaymentGroup` with `token` set but `chain` null never
succeeds — the token's mandatory non-null chain can never equal a null
chain — and successful creation preserves the invariant that every
persisted token-denominated group has a non-null chain. -/
theorem createPaymentGroup_null_chain (st : Store) (id : Nat)
    (name : String) (detail : Option String) (wallet tid : Nat)
    (chain : Option Nat) (token : Option Nat)
    (hpre : ∀ g ∈ st.groups, g.token.isSome = true → g.chain.isSome = true) :
    (∀ st', createPaymentGroup st id name detail wallet none (some tid) ≠ .ok st') ∧
    (∀ st', createPaymentGroup st id name detail wallet chain token = .ok st' →
      ∀ g ∈ st'.groups, g.token.isSome = true → g.chain.isSome = true) := by
  constructor
  · intro st' h
    unfold createPaymentGroup at h
    cases hlw : liveWallet st wallet with
    | false => rw [hlw] at h; simp at h
    | true =>
      rw [hlw] at h
      simp only [Bool.not_true, Bool.false_eq_true, if_false, chainRefOk] at h
      cases hft : findLiveToken st tid with
      | none => rw [hft] at h; simp at h
      | some t => rw [hft] at h; simp at h
  · intro st' h g hg htok
    unfold createPaymentGroup at h
    cases hlw : liveWallet st wallet with
    | false => rw [hlw] at h; simp at h
    | true =>
      rw [hlw] at h
      cases hcr : chainRefOk st chain with
      | false => rw [hcr] at h; simp at h
      | true =>
        rw [hcr] at h
        simp only [Bool.not_true, Bool.false_eq_true, if_false] at h
        cases htk : token with
        | none =>
          rw [htk] at h
          injection h with h'
          subst h'
          rcases List.mem_append.mp hg with hgl | hgr
          · exact hpre g hgl htok
          · have hgeq : g = ⟨id, name, detail, wallet, chain, none, none⟩ := by
              simpa using hgr
            subst hgeq
            simp at htok
        | some tid' =>
          rw [htk] at h
          dsimp only at h
          cases hft : findLiveToken st tid' with
          | none => rw [hft] at h; simp at h
          | some t =>
            rw [hft] at h
            dsimp only at h
            cases hbeq : chain == some t.chain with
            | false => rw [hbeq] at h; simp at h
            | true =>
              rw [hbeq] at h
              injection h with h'
              subst h'
              rcases List.mem_append.mp hg with hgl | hgr
              · exact hpre g hgl htok
              · have hgeq : g = ⟨id, name, detail, wallet, chain, some tid', none⟩ := by
                  simpa using hgr
                subst hgeq
                have : chain = some t.chain := by simpa using hbeq
                simp [this]

/-- Witness for C9 at a concrete store. -/
theorem createPaymentGroup_null_chain_witness :
    (∀ g ∈ stW.groups, g.token.isSome = true → g.chain.isSome = true) ∧
    ((∀ st', createPaymentGroup stW 8 "g" none 1 none (some 1) ≠ .ok st') ∧
     (∀ st', createPaymentGroup stW 8 "g" none 1 (some 1) (some 1) = .ok st' →
       ∀ g ∈ st'.groups, g.token.isSome = true → g.chain.isSome = true)) :=
  ⟨by decide,
   createPaymentGroup_null_chain stW 8 "g" none 1 1 (some 1) (some 1) (by decide)⟩

/-- C3: creating a `Payee` whose live `(wallet, payment_group)` pair is
already taken fails with the uniqueness error of the partial constraint
`payee_wallet_payment_group`, and a successful creation preserves the
invariant that no two live payee rows share the pair. -/
theorem createPayee_unique_wallet_group (st : Store) (id amount gid : Nat)
    (name w : String) (hv : isValidEthereumAddress w = true)
    (hg : liveGroupExists st gid = true) :
    ((∃ p ∈ st.payees, p.deleted_at = none ∧ p.wallet = w ∧ p.payment_group = gid) →
      createPayee st id name w gid amount =
        .error (.uniquenessViolation "payee_wallet_payment_group")) ∧
    (payeesUniqueLive st → ∀ st', createPayee st id name w gid amount = .ok st' →
      payeesUniqueLive st') := by
  constructor
  · rintro ⟨p, hp, h1, h2, h3⟩
    have hdup : livePayeeDup st w gid = true :=
      List.any_eq_true.mpr ⟨p, hp, by simp [h1, h2, h3]⟩
    simp [createPayee, hv, hg, hdup]
  · intro huniq st' h
    unfold createPayee at h
    rw [hv, hg] at h
    cases hdup : livePayeeDup st w gid with
    | true => rw [hdup] at h; simp at h
    | false =>
      rw [hdup] at h
      simp only [Bool.not_true, Bool.false_eq_true, if_false] at h
      injection h with h'
      subst h'
      unfold payeesUniqueLive at huniq ⊢
      rw [List.pairwise_append]
      refine ⟨huniq, List.pairwise_singleton _ _, ?_⟩
      intro a ha b hb
      have hb' : b = ⟨id, name, w, gid, amount, none⟩ := by simpa using hb
      subst hb'
      intro hal _ hcon
      have : livePayeeDup st w gid = true :=
        List.any_eq_true.mpr ⟨a, ha, by simp [hal, hcon.1, hcon.2]⟩
      rw [hdup] at this
      cases this

/-- Witness for C3: the pair of the live payee `payeeW` is already taken
in `stW`. -/
theorem createPayee_unique_wallet_group_witness :
    isValidEthereumAddress addrW = true ∧ liveGroupExists stW 1 = true ∧
    (((∃ p ∈ stW.payees, p.deleted_at = none ∧ p.wallet = addrW ∧ p.payment_group = 1) →
       createPayee stW 9 "bob" addrW 1 7 =
         .error (.uniquenessViolation "payee_wallet_payment_group")) ∧
     (payeesUniqueLive stW → ∀ st', createPayee stW 9 "bob" addrW 1 7 = .ok st' →
       payeesUniqueLive st')) :=
  ⟨by decide, by decide,
   createPayee_unique_wallet_group stW 9 7 1 "bob" addrW (by decide) (by decide)⟩

/-- C4: after soft-deleting the payee holding a `(wallet, payment_group)`
pair, creating a fresh payee with the same pair succeeds — the partial
uniqueness constraint sees live rows only, so the soft-deleted row no
longer blocks the pair. -/
theorem createPayee_after_softDelete (st : Store) (p : Payee)
    (now id amount' : Nat) (name' : String)
    (_hp : p ∈ st.payees)
    (hv : isValidEthereumAddress p.wallet = true)
    (hg : liveGroupExists st p.payment_group = true)
    (huniq : ∀ q ∈ st.payees, q.deleted_at = none → q.wallet = p.wallet →
      q.payment_group = p.payment_group → q.id = p.id) :
    createPayee (softDeletePayee st p.id now) id name' p.wallet p.payment_group amount' =
      .ok { softDeletePayee st p.id now with
        payees := (softDeletePayee st p.id now).payees ++
          [⟨id, name', p.wallet, p.payment_group, amount', none⟩] } := by
  have hg2 : liveGroupExists (softDeletePayee st p.id now) p.payment_group = true := hg
  have hdup : livePayeeDup (softDeletePayee st p.id now) p.wallet p.payment_group = false := by
    rw [livePayeeDup, List.any_eq_false]
    intro q' hq'
    have hq'' : q' ∈ st.payees.map (fun q =>
        if q.id == p.id && q.deleted_at == none then { q with deleted_at := some now } else q) := hq'
    rw [List.mem_map] at hq''
    obtain ⟨q, hq, rfl⟩ := hq''
    by_cases hid : (q.id == p.id && q.deleted_at == none) = true
    · rw [if_pos hid]
      simp
    · rw [if_neg hid]
      simp only [Bool.and_eq_true, beq_iff_eq, not_and] at hid
      simp only [Bool.and_eq_true, beq_iff_eq, not_and]
      intro h1 h2
      exact hid (huniq q hq h1.1 h1.2 h2) h1.1
  simp [createPayee, hv, hg2, hdup]

/-- Witness for C4: soft-delete `payeeW` in `stW`, then re-create its
`(wallet, payment_group)` pair. -/
theorem createPayee_after_softDelete_witness :
    payeeW ∈ stW.payees ∧ isValidEthereumAddress payeeW.wallet = true ∧
    liveGroupExists stW payeeW.payment_group = true ∧
    (∀ q ∈ stW.payees, q.deleted_at = none → q.wallet = payeeW.wallet →
      q.payment_group = payeeW.payment_group → q.id = payeeW.id) ∧
    createPayee (softDeletePayee stW payeeW.id 3) 9 "carol" payeeW.wallet
        payeeW.payment_group 7 =
      .ok { softDeletePayee stW payeeW.id 3 with
        payees := (softDeletePayee stW payeeW.id 3).payees ++
          [⟨9, "carol", payeeW.wallet, payeeW.payment_group, 7, none⟩] } :=
  ⟨by decide, by decide, by decide, by decide,
   createPayee_after_softDelete stW payeeW 3 9 7 "carol" (by decide) (by decide)
     (by decide) (by decide)⟩

/-- C5: soft-deleting a `PaymentGroup` cascades *logical* deletion: every
payee of the group and every payment referencing a payee of the group
carries a deletion marker afterwards, while no row is removed from any
table — row counts are preserved and every original row id survives. -/
theorem softDeletePaymentGroup_cascades (st : Store) (gid now : Nat) :
    (∀ p ∈ (softDeletePaymentGroup st gid now).payees,
      p.payment_group = gid → p.deleted_at.isSome = true) ∧
    (∀ q ∈ (softDeletePaymentGroup st gid now).payments,
      (∃ p ∈ st.payees, p.payment_group = gid ∧ p.id = q.payee) →
      q.deleted_at.isSome = true) ∧
    (softDeletePaymentGroup st gid now).payees.length = st.payees.length ∧
    (softDeletePaymentGroup st gid now).payments.length = st.payments.length ∧
    (∀ p ∈ st.payees, ∃ p' ∈ (softDeletePaymentGroup st gid now).payees, p'.id = p.id) ∧
    (∀ q ∈ st.payments, ∃ q' ∈ (softDeletePaymentGroup st gid now).payments, q'.id = q.id) := by
  refine ⟨?_, ?_, by simp [softDeletePaymentGroup], by simp [softDeletePaymentGroup], ?_, ?_⟩
  · intro p hp hpg
    have hp' : p ∈ st.payees.map (fun p =>
        if p.payment_group == gid && p.deleted_at == none then
          { p with deleted_at := some now } else p) := hp
    rw [List.mem_map] at hp'
    obtain ⟨p0, hp0, rfl⟩ := hp'
    by_cases hc : (p0.payment_group == gid && p0.deleted_at == none) = true
    · rw [if_pos hc] at hpg ⊢
      simp
    · rw [if_neg hc] at hpg ⊢
      simp only [Bool.and_eq_true, beq_iff_eq, not_and] at hc
      have hnd := hc hpg
      cases hd : p0.deleted_at with
      | none => exact absurd hd hnd
      | some _ => simp [hd]
  · intro q hq hex
    have hq' : q ∈ st.payments.map (fun q =>
        if (st.payees.any (fun p => p.payment_group == gid && p.id == q.payee))
            && q.deleted_at == none then { q with deleted_at := some now } else q) := hq
    rw [List.mem_map] at hq'
    obtain ⟨q0, hq0, rfl⟩ := hq'
    by_cases hc : ((st.payees.any (fun p => p.payment_group == gid && p.id == q0.payee))
        && q0.deleted_at == none) = true
    · rw [if_pos hc] at hex ⊢
      simp
    · rw [if_neg hc] at hex ⊢
      obtain ⟨p, hp, h1, h2⟩ := hex
      have hany : st.payees.any (fun p => p.payment_group == gid && p.id == q0.payee) = true :=
        List.any_eq_true.mpr ⟨p, hp, by simp [h1, h2]⟩
      rw [hany] at hc
      simp only [Bool.true_and, beq_iff_eq] at hc
      cases hd : q0.deleted_at with
      | none => exact absurd hd hc
      | some _ => simp [hd]
  · intro p hp
    have hmem : (if p.payment_group == gid && p.deleted_at == none then
        { p with deleted_at := some now } else p) ∈ (softDeletePaymentGroup st gid now).payees :=
      List.mem_map.mpr ⟨p, hp, rfl⟩
    refine ⟨_, hmem, ?_⟩
    by_cases hc : (p.payment_group == gid && p.deleted_at == none) = true
    · rw [if_pos hc]
    · rw [if_neg hc]
  · intro q hq
    have hmem : (if (st.payees.any (fun p => p.payment_group == gid && p.id == q.payee))
        && q.deleted_at == none then { q with deleted_at := some now } else q) ∈
        (softDeletePaymentGroup st gid now).payments :=
      List.mem_map.mpr ⟨q, hq, rfl⟩
    refine ⟨_, hmem, ?_⟩
    by_cases hc : ((st.payees.any (fun p => p.payment_group == gid && p.id == q.payee))
        && q.deleted_at == none) = true
    · rw [if_pos hc]
    · rw [if_neg hc]

/-- Witness for C5 at a concrete store holding one group, one payee of
that group, and one payment of that payee. -/
theorem softDeletePaymentGroup_cascades_witness :
    (∀ p ∈ (softDeletePaymentGroup stW 1 4).payees,
      p.payment_group = 1 → p.deleted_at.isSome = true) ∧
    (∀ q ∈ (softDeletePaymentGroup stW 1 4).payments,
      (∃ p ∈ stW.payees, p.payment_group = 1 ∧ p.id = q.payee) →
      q.deleted_at.isSome = true) ∧
    (softDeletePaymentGroup stW 1 4).payees.length = stW.payees.length ∧
    (softDeletePaymentGroup stW 1 4).payments.length = stW.payments.length ∧
    (∀ p ∈ stW.payees, ∃ p' ∈ (softDeletePaymentGroup stW 1 4).payees, p'.id = p.id) ∧
    (∀ q ∈ stW.payments, ∃ q' ∈ (softDeletePaymentGroup stW 1 4).payments, q'.id = q.id) :=
  softDeletePaymentGroup_cascades stW 1 4

/-- C10: because `Chain` has no soft-delete column, deleting a chain runs
the ordinary cascade collector: the chain row, every token on the chain,
every group referencing the chain directly or through such a token, those
groups' payees and those payees' payments are *removed* from their tables
(the survivors form unmarked sublists of the original tables), even
though tokens, groups, payees and payments are themselves soft-deletable. -/
theorem hardDeleteChain_cascades (st : Store) (cid : Nat) :
    (∀ c ∈ (hardDeleteChain st cid).chains, c.id ≠ cid) ∧
    (∀ t ∈ (hardDeleteChain st cid).tokens, t.chain ≠ cid) ∧
    (∀ g ∈ (hardDeleteChain st cid).groups, g.chain ≠ some cid ∧
      ∀ tid, g.token = some tid → ∀ t ∈ st.tokens, t.id = tid → t.chain ≠ cid) ∧
    (∀ p ∈ (hardDeleteChain st cid).payees, ∀ g ∈ st.groups,
      g.id = p.payment_group → chainGoneGroup st cid g = false) ∧
    (∀ q ∈ (hardDeleteChain st cid).payments, ∀ p ∈ st.payees,
      p.id = q.payee → chainGonePayee st cid p = false) ∧
    (hardDeleteChain st cid).chains.Sublist st.chains ∧
    (hardDeleteChain st cid).tokens.Sublist st.tokens ∧
    (hardDeleteChain st cid).groups.Sublist st.groups ∧
    (hardDeleteChain st cid).payees.Sublist st.payees ∧
    (hardDeleteChain st cid).payments.Sublist st.payments := by
  refine ⟨?_, ?_, ?_, ?_, ?_, List.filter_sublist _, List.filter_sublist _,
    List.filter_sublist _, List.filter_sublist _, List.filter_sublist _⟩
  · intro c hc
    have := (List.mem_filter.mp hc).2
    simpa using this
  · intro t ht
    have := (List.mem_filter.mp ht).2
    simpa [chainGoneToken] using this
  · intro g hg
    have h2 : chainGoneGroup st cid g = false := by
      have := (List.mem_filter.mp hg).2
      simpa using this
    rw [chainGoneGroup, Bool.or_eq_false_iff] at h2
    obtain ⟨ha, hb⟩ := h2
    constructor
    · intro hcon
      rw [hcon] at ha
      simp at ha
    · intro tid htid t ht htt
      rw [htid] at hb
      dsimp only at hb
      rw [List.any_eq_false] at hb
      have := hb t ht
      simp only [Bool.and_eq_true, beq_iff_eq, not_and] at this
      exact this htt
  · intro p hp g hg hid
    have h2 : chainGonePayee st cid p = false := by
      have := (List.mem_filter.mp hp).2
      simpa using this
    rw [chainGonePayee, List.any_eq_false] at h2
    have := h2 g hg
    simp only [Bool.and_eq_true, beq_iff_eq, not_and] at this
    cases hcg : chainGoneGroup st cid g with
    | false => rfl
    | true => exact absurd hid (this hcg)
  · intro q hq p hp hid
    have h2 : chainGonePayment st cid q = false := by
      have := (List.mem_filter.mp hq).2
      simpa using this
    rw [chainGonePayment, List.any_eq_false] at h2
    have := h2 p hp
    simp only [Bool.and_eq_true, beq_iff_eq, not_and] at this
    cases hcp : chainGonePayee st cid p with
    | false => rfl
    | true => exact absurd hid (this hcp)

/-- Witness for C10 at a concrete store where chain 1 carries a token, a
group, a payee and a payment. -/
theorem hardDeleteChain_cascades_witness :
    (∀ c ∈ (hardDeleteChain stW 1).chains, c.id ≠ 1) ∧
    (∀ t ∈ (hardDeleteChain stW 1).tokens, t.chain ≠ 1) ∧
    (∀ g ∈ (hardDeleteChain stW 1).groups, g.chain ≠ some 1 ∧
      ∀ tid, g.token = some tid → ∀ t ∈ stW.tokens, t.id = tid → t.chain ≠ 1) ∧
    (∀ p ∈ (hardDeleteChain stW 1).payees, ∀ g ∈ stW.groups,
      g.id = p.payment_group → chainGoneGroup stW 1 g = false) ∧
    (∀ q ∈ (hardDeleteChain stW 1).payments, ∀ p ∈ stW.payees,
      p.id = q.payee → chainGonePayee stW 1 p = false) ∧
    (hardDeleteChain stW 1).chains.Sublist stW.chains ∧
    (hardDeleteChain stW 1).tokens.Sublist stW.tokens ∧
    (hardDeleteChain stW 1).groups.Sublist stW.groups ∧
    (hardDeleteChain stW 1).payees.Sublist stW.payees ∧
    (hardDeleteChain stW 1).payments.Sublist stW.payments :=
  hardDeleteChain_cascades stW 1

/-- C2: a create or update that would give a token the `(address, chain)`
pair of another live token row fails with the uniqueness violation of
`unique_erc20token_address_chain_id` — returning an error, so the store is
unchanged — and successful creates and updates preserve the invariant
that no two live token rows share `(address, chain)`. -/
theorem erc20token_unique_address_chain (st : Store) (id tid chain : Nat)
    (name symbol address : String) (hch : chainExists st chain = true) :
    ((∃ t ∈ st.tokens, t.deleted_at = none ∧ t.address = address ∧ t.chain = chain) →
      createERC20Token st id name symbol address chain =
        .error (.uniquenessViolation "unique_erc20token_address_chain_id")) ∧
    ((∃ t' ∈ st.tokens, t'.id ≠ tid ∧ t'.deleted_at = none ∧ t'.address = address ∧
        t'.chain = chain) → ∀ t, findLiveToken st tid = some t →
      updateERC20Token st tid address chain =
        .error (.uniquenessViolation "unique_erc20token_address_chain_id")) ∧
    (tokensUniqueLive st → ∀ st', createERC20Token st id name symbol address chain = .ok st' →
      tokensUniqueLive st') ∧
    (tokensUniqueLive st → tokenIdsDistinct st → ∀ st',
      updateERC20Token st tid address chain = .ok st' → tokensUniqueLive st') := by
  refine ⟨?_, ?_, ?_, ?_⟩
  · rintro ⟨t, ht, h1, h2, h3⟩
    have hd : liveTokenDup st address chain = true :=
      List.any_eq_true.mpr ⟨t, ht, by simp [h1, h2, h3]⟩
    simp [createERC20Token, hch, hd]
  · rintro ⟨t', ht', hne, h1, h2, h3⟩ t hft
    have hany : st.tokens.any (fun x => !(x.id == tid) && x.deleted_at == none &&
        x.address == address && x.chain == chain) = true :=
      List.any_eq_true.mpr ⟨t', ht', by simp [hne, h1, h2, h3]⟩
    unfold updateERC20Token
    rw [hft]
    dsimp only
    simp [hch, hany]
  · intro huniq st' h
    unfold createERC20Token at h
    rw [hch] at h
    cases hd : liveTokenDup st address chain with
    | true => rw [hd] at h; simp at h
    | false =>
      rw [hd] at h
      simp only [Bool.not_true, Bool.false_eq_true, if_false] at h
      injection h with h'
      subst h'
      unfold tokensUniqueLive at huniq ⊢
      rw [List.pairwise_append]
      refine ⟨huniq, List.pairwise_singleton _ _, ?_⟩
      intro a ha b hb
      have hb' : b = ⟨id, name, symbol, address, chain, none⟩ := by simpa using hb
      subst hb'
      intro hal _ hcon
      have : liveTokenDup st address chain = true :=
        List.any_eq_true.mpr ⟨a, ha, by simp [hal, hcon.1, hcon.2]⟩
      rw [hd] at this
      cases this
  · intro huniq hids st' h
    unfold updateERC20Token at h
    cases hft : findLiveToken st tid with
    | none => rw [hft] at h; simp at h
    | some t0 =>
      rw [hft] at h
      dsimp only at h
      rw [hch] at h
      cases hany : st.tokens.any (fun x => !(x.id == tid) && x.deleted_at == none &&
          x.address == address && x.chain == chain) with
      | true => rw [hany] at h; simp at h
      | false =>
        rw [hany] at h
        simp only [Bool.not_true, Bool.false_eq_true, if_false] at h
        injection h with h'
        subst h'
        have hids' : st.tokens.Pairwise (fun a b => a.id ≠ b.id) := hids
        unfold tokensUniqueLive at huniq ⊢
        rw [List.pairwise_map]
        have hanyf := List.any_eq_false.mp hany
        refine (huniq.and hids').imp_of_mem ?_
        intro a b ha hb hab
        obtain ⟨hR, hne⟩ := hab
        by_cases hba : (a.id == tid && a.deleted_at == none) = true
        · rw [if_pos hba]
          by_cases hbb : (b.id == tid && b.deleted_at == none) = true
          · exfalso
            simp only [Bool.and_eq_true, beq_iff_eq] at hba hbb
            exact hne (hba.1.trans hbb.1.symm)
          · rw [if_neg hbb]
            intro _ hbl hcon
            have hbid : ¬ b.id = tid := fun hb' => by simp [hb', hbl] at hbb
            exact (hanyf b hb) (by simp [hbid, hbl, hcon.1.symm, hcon.2.symm])
        · rw [if_neg hba]
          by_cases hbb : (b.id == tid && b.deleted_at == none) = true
          · rw [if_pos hbb]
            intro hal _ hcon
            have haid : ¬ a.id = tid := fun ha' => by simp [ha', hal] at hba
            exact (hanyf a ha) (by simp [haid, hal, hcon.1, hcon.2])
          · rw [if_neg hbb]
            exact hR

/-- Witness for C2: `stW` already holds the live token `tokenW` with
`(address, chain) = ("0xA0b8", 1)`. -/
theorem erc20token_unique_address_chain_witness :
    chainExists stW 1 = true ∧
    (((∃ t ∈ stW.tokens, t.deleted_at = none ∧ t.address = "0xA0b8" ∧ t.chain = 1) →
       createERC20Token stW 9 "Tether" "USDT" "0xA0b8" 1 =
         .error (.uniquenessViolation "unique_erc20token_address_chain_id")) ∧
     ((∃ t' ∈ stW.tokens, t'.id ≠ 1 ∧ t'.deleted_at = none ∧ t'.address = "0xA0b8" ∧
         t'.chain = 1) → ∀ t, findLiveToken stW 1 = some t →
       updateERC20Token stW 1 "0xA0b8" 1 =
         .error (.uniquenessViolation "unique_erc20token_address_chain_id")) ∧
     (tokensUniqueLive stW → ∀ st',
       createERC20Token stW 9 "Tether" "USDT" "0xA0b8" 1 = .ok st' →
       tokensUniqueLive st') ∧
     (tokensUniqueLive stW → tokenIdsDistinct stW → ∀ st',
       updateERC20Token stW 1 "0xA0b8" 1 = .ok st' → tokensUniqueLive st')) :=
  ⟨by decide,
   erc20token_unique_address_chain stW 9 1 1 "Tether" "USDT" "0xA0b8" (by decide)⟩
